import Mathlib

/-!
Shallow embedding of `reporter.py` (pmi_sprint_reporter): the schema-driven
CSV load pipeline.  Pure string helpers model the Python string operations
used by the script; a small data-frame model covers the pandas operations
`rename(columns=str.lower)`, `reindex(columns=...)` and `fillna`; the
per-table load loop of `process`, the namespace reset of
`drop_tables`/`create_tables`, and the log export of `export_log` are
embedded as explicit state-passing functions.
-/

/-! ## String helpers (models of Python `str` operations) -/

/-- Model of Python `needle == hay[:len(needle)]`: char-list starts-with. -/
def startsWithList : List Char → List Char → Bool
  | [], _ => true
  | _ :: _, [] => false
  | a :: as, b :: bs => a == b && startsWithList as bs

/-- Model of Python `needle in hay` (substring containment). -/
def containsList (needle : List Char) : List Char → Bool
  | [] => startsWithList needle []
  | b :: bs => startsWithList needle (b :: bs) || containsList needle bs

/-- Python `sub in s`. -/
def strContains (s sub : String) : Bool :=
  containsList sub.data s.data

/-- Python `s.endswith(suf)`. -/
def strEndsWith (s suf : String) : Bool :=
  startsWithList suf.data.reverse s.data.reverse

/-- Python `str.lower` on a single character (ASCII). -/
def lowerChar (c : Char) : Char :=
  if 'A' ≤ c ∧ c ≤ 'Z' then Char.ofNat (c.toNat + 32) else c

/-- Python `s.lower()` (ASCII). -/
def strLower (s : String) : String :=
  ⟨s.data.map lowerChar⟩

/-! ## Data-frame model (the pandas operations used in `process`) -/

/-- A scalar value in a data-frame cell. -/
inductive Val
  | vint (n : Int)
  | vstr (s : String)
deriving DecidableEq, Repr

/-- A cell: `none` models pandas `NaN` (the script reads `''`, `' '`, `'.'`
as missing). -/
abbrev Cell : Type := Option Val

/-- A data frame: a header row plus rows of cells aligned with the header. -/
structure DF where
  cols : List String
  rows : List (List Cell)
deriving DecidableEq

/-- Value of column `c` in a row aligned with `cols`: the cell under the
first occurrence of `c`, `none` when the column is absent (pandas `reindex`
fills absent columns with `NaN`). -/
def getCol : List String → List Cell → String → Cell
  | [], _, _ => none
  | _ :: _, [], _ => none
  | c' :: cs, v :: vs, c => if c' = c then v else getCol cs vs c

/-- `df.rename(columns=str.lower)` (reporter.py line 165). -/
def DF.renameLower (df : DF) : DF :=
  ⟨df.cols.map strLower, df.rows⟩

/-- `df.reindex(columns=column_names)` (reporter.py line 168): exactly the
target columns in target order; absent columns become `NaN`. -/
def DF.reindex (df : DF) (target : List String) : DF :=
  ⟨target, df.rows.map (fun r => target.map (getCol df.cols r))⟩

/-- The filter `x.endswith('concept_id') and 'source' not in x`
(reporter.py line 171), applied to the raw column name. -/
def isConceptCol (c : String) : Bool :=
  strEndsWith c "concept_id" && !(strContains c "source")

/-- One row of `df[concept_columns].fillna(value=0)` (reporter.py line 172):
cells under a concept column have `NaN` replaced by integer `0`. -/
def fillRow : List String → List Cell → List Cell
  | [], _ => []
  | _ :: _, [] => []
  | c :: cs, v :: vs =>
      (if isConceptCol c then some (v.getD (Val.vint 0)) else v) :: fillRow cs vs

/-- `df[concept_columns] = df[concept_columns].fillna(value=0)` applied to a
frame whose columns are the target columns (reporter.py lines 171-172). -/
def DF.fillConcept (df : DF) : DF :=
  ⟨df.cols, df.rows.map (fillRow df.cols)⟩

/-- The whole transformation of `process` on a parsed frame
(reporter.py lines 165-172): lowercase headers, reindex to the target
columns, fill missing concept identifiers with 0. -/
def transform (df : DF) (target : List String) : DF :=
  DF.fillConcept (DF.reindex (DF.renameLower df) target)

/-- The cells of column `c` of a frame, row by row. -/
def DF.column (df : DF) (c : String) : List Cell :=
  df.rows.map (fun r => getCol df.cols r c)

/-! ## File matcher (reporter.py lines 113-120, 128-154) -/

/-- Name of the log table (reporter.py line 19). -/
def LOG_TABLE_NAME : String := "pmi_sprint_reporter_log"

/-- Insert into an association list with Python-dict semantics: replace the
existing binding of the key, otherwise append. -/
def setKeyS : List (String × String) → String → String → List (String × String)
  | [], k, v => [(k, v)]
  | (k', v') :: rest, k, v =>
      if k' = k then (k, v) :: rest else (k', v') :: setKeyS rest k v

/-- `dict(map(path_to_file_map_item, glob.glob(...)))` (reporter.py
lines 114-120): index the directory's CSV filenames by their lowercased
name; a later file with the same lowercased name overwrites an earlier one. -/
def buildFileMap (files : List String) : List (String × String) :=
  files.foldl (fun m f => setKeyS m (strLower f) f) []

/-- Python `file_map[k]` / `k in file_map` as an optional lookup. -/
def lookupFile (m : List (String × String)) (k : String) : Option String :=
  (m.find? (fun p => p.1 == k)).map Prod.snd

/-- `'%(hpo_id)s_%(table_name)s_datasprint_%(sprint_num)s.csv' % locals()`
(reporter.py line 128). -/
def expectedFilename (hpoId tableName sprintNum : String) : String :=
  hpoId ++ "_" ++ tableName ++ "_datasprint_" ++ sprintNum ++ ".csv"

/-- Resolution of the expected file for one table: build the index and look
the expected filename up in it (reporter.py lines 119-120, 128, 150, 154). -/
def resolve (files : List String) (hpoId tableName sprintNum : String) :
    Option String :=
  lookupFile (buildFileMap files) (expectedFilename hpoId tableName sprintNum)

/-! ## Log entries and the per-table load loop (reporter.py lines 125-181) -/

/-- A row of the log table (columns per `create_tables`,
reporter.py lines 75-83).  `log_id` is the insertion timestamp, modelled as
a monotone counter. -/
structure LogEntry where
  log_id : Nat
  table_name : String
  phase : String
  success : Bool
  message : Option String
  params : Option String
deriving DecidableEq, Repr

/-- `params or None` in `fail` (reporter.py line 147): a falsy (empty)
params string is stored as null. -/
def normParams : Option String → Option String
  | none => none
  | some s => if s = "" then none else some s

/-- Result of `df.to_sql` for one table: success, a `StatementError` with
message and stringified bound params, or another exception with a message. -/
inductive LoadResult
  | ok
  | stmtErr (msg : String) (params : String)
  | exn (msg : String)
deriving DecidableEq, Repr

/-- Environment behaviour for one table: what `pandas.read_csv` returns for
its file (or the exception message), and what `to_sql` does to the
transformed frame. -/
structure TableOutcome where
  parse : Except String DF
  load : DF → LoadResult

/-- The external world `process` runs against: the directory's file index
and the parse/load behaviour per table name. -/
structure Env where
  fileMap : List (String × String)
  outcome : String → TableOutcome

/-- The body of the per-table loop of `process` (reporter.py lines 125-181)
for one table: check the file exists, parse, transform, load, writing a log
entry at each phase; returns the log entries written and the advanced
clock. -/
def processTable (env : Env) (hpoId sprintNum : String) (clk : Nat)
    (tableName : String) (columnNames : List String) : List LogEntry × Nat :=
  let csvFilename := expectedFilename hpoId tableName sprintNum
  let phase1 := "Received CSV file \"" ++ csvFilename ++ "\""
  match lookupFile env.fileMap csvFilename with
  | none =>
      ([⟨clk, tableName, phase1, false, some "File not found", none⟩], clk + 1)
  | some _ =>
      let e1 : LogEntry := ⟨clk, tableName, phase1, true, none, none⟩
      match (env.outcome tableName).parse with
      | .error msg =>
          ([e1, ⟨clk + 1, tableName, "Parsing CSV file", false, some msg, none⟩],
           clk + 2)
      | .ok df =>
          let e2 : LogEntry := ⟨clk + 1, tableName, "Parsing CSV file", true, none, none⟩
          match (env.outcome tableName).load (transform df columnNames) with
          | .ok =>
              ([e1, e2,
                ⟨clk + 2, tableName, "Loading file into table", true, none, none⟩],
               clk + 3)
          | .stmtErr m p =>
              ([e1, e2,
                ⟨clk + 2, tableName, "Loading file into table", false, some m,
                 normParams (some p)⟩],
               clk + 3)
          | .exn m =>
              ([e1, e2,
                ⟨clk + 2, tableName, "Loading file into table", false, some m, none⟩],
               clk + 3)

/-- The per-table iteration of `process` over the in-scope tables
(reporter.py line 125): each table is attempted in turn, its log entries
appended. -/
def process (env : Env) (hpoId sprintNum : String) :
    List (String × List String) → Nat → List LogEntry × Nat
  | [], clk => ([], clk)
  | (n, cols) :: rest, clk =>
      let r1 := processTable env hpoId sprintNum clk n cols
      let r2 := process env hpoId sprintNum rest r1.2
      (r1.1 ++ r2.1, r2.2)

/-- Whether a table goes through all three phases successfully: its file is
found, parses, and the transformed frame loads without error. -/
def fullySucceeds (env : Env) (hpoId sprintNum tableName : String)
    (columnNames : List String) : Bool :=
  match lookupFile env.fileMap (expectedFilename hpoId tableName sprintNum) with
  | none => false
  | some _ =>
      match (env.outcome tableName).parse with
      | .error _ => false
      | .ok df =>
          match (env.outcome tableName).load (transform df columnNames) with
          | .ok => true
          | _ => false

/-- The `(phase, success)` trace the loop writes for one table, by outcome:
only phase 1 on a missing file; phases 1-2 on a parse error; phases 1-3
otherwise, the last flag telling whether the load succeeded. -/
def expectedTrace (env : Env) (hpoId sprintNum tableName : String)
    (columnNames : List String) : List (String × Bool) :=
  let p1 := "Received CSV file \"" ++ expectedFilename hpoId tableName sprintNum ++ "\""
  match lookupFile env.fileMap (expectedFilename hpoId tableName sprintNum) with
  | none => [(p1, false)]
  | some _ =>
      match (env.outcome tableName).parse with
      | .error _ => [(p1, true), ("Parsing CSV file", false)]
      | .ok df =>
          match (env.outcome tableName).load (transform df columnNames) with
          | .ok =>
              [(p1, true), ("Parsing CSV file", true),
               ("Loading file into table", true)]
          | _ =>
              [(p1, true), ("Parsing CSV file", true),
               ("Loading file into table", false)]

/-! ## Log export (reporter.py lines 184-205) -/

/-- A JSON-able value in an exported record. -/
inductive JVal
  | jnull
  | jbool (b : Bool)
  | jstr (s : String)
  | jtime (t : Nat)
deriving DecidableEq, Repr

/-- A nullable string column as a JSON value. -/
def optStrJ : Option String → JVal
  | none => .jnull
  | some s => .jstr s

/-- `dict(zip(row.keys(), row))` (reporter.py line 197): the log row as a
key-value dictionary, keys in the log table's column order. -/
def rowToPairs (e : LogEntry) : List (String × JVal) :=
  [("log_id", .jtime e.log_id),
   ("table_name", .jstr e.table_name),
   ("phase", .jstr e.phase),
   ("success", .jbool e.success),
   ("message", optStrJ e.message),
   ("params", optStrJ e.params)]

/-- Python `del d[k]` on an association list. -/
def eraseKey (k : String) : List (String × JVal) → List (String × JVal)
  | [] => []
  | (k', v) :: rest =>
      if k' = k then eraseKey k rest else (k', v) :: eraseKey k rest

/-- Python `d[k] = v` on an association list: replace the first binding of
the key, otherwise append. -/
def setKey (k : String) (v : JVal) : List (String × JVal) → List (String × JVal)
  | [] => [(k, v)]
  | (k', v') :: rest =>
      if k' = k then (k, v) :: rest else (k', v') :: setKey k v rest

/-- One exported record (reporter.py lines 197-200): the row dictionary with
`params` deleted, `hpo_id` added, and `log_id` converted to a string. -/
def exportRow (hpoId : String) (e : LogEntry) : List (String × JVal) :=
  setKey "log_id" (.jstr (toString e.log_id))
    (setKey "hpo_id" (.jstr hpoId) (eraseKey "params" (rowToPairs e)))

/-- `export_log` (reporter.py lines 190-201): all sites' log rows, in site
order then row order, each exported via `exportRow`. -/
def exportLog (logs : String → List LogEntry) :
    List String → List (List (String × JVal))
  | [] => []
  | h :: rest => (logs h).map (exportRow h) ++ exportLog logs rest

/-- Agreement of two log entries on every field except `params`. -/
def sameButParams (a b : LogEntry) : Prop :=
  a.log_id = b.log_id ∧ a.table_name = b.table_name ∧ a.phase = b.phase ∧
    a.success = b.success ∧ a.message = b.message

/-! ## Namespace reset (reporter.py lines 34-85) -/

/-- A concrete column type as produced by `create_tables`
(reporter.py lines 59-68, 75-83). -/
inductive ColType
  | stringN (n : Nat)
  | bigint
  | floatT
  | dateT
  | datetimeT
  | boolT
deriving DecidableEq, Repr

/-- A created column: name, type, nullability. -/
structure ColDef where
  column_name : String
  tpe : ColType
  nullable : Bool
deriving DecidableEq, Repr

/-- One row of the schema catalog `cdm.csv` (the two unused columns of the
five-column layout are dropped, reporter.py line 58). -/
structure CdmRow where
  table_name : String
  column_name : String
  is_nullable : String
  data_type : String
deriving DecidableEq, Repr

/-- The state of one created table: its column layout and its rows. -/
structure TableState where
  columns : List ColDef
  rows : List (List Cell)
deriving DecidableEq

/-- A namespace: a map from table name to an optional table state. -/
def NS : Type := String → Option TableState

/-- The data-type dispatch of `create_tables` (reporter.py lines 59-70):
recognized tokens map to a column type, anything else raises
`NotImplementedError`. -/
def typeOfData (dt : String) : Except String ColType :=
  if dt = "character varying" ∨ dt = "text" then .ok (.stringN 500)
  else if dt = "integer" then .ok .bigint
  else if dt = "numeric" then .ok .floatT
  else if dt = "date" then .ok .dateT
  else if dt = "datetime" then .ok .datetimeT
  else .error ("Unexpected data_type `" ++ dt ++ "` in cdm.csv")

/-- The recognized data-type tokens. -/
def recognized (dt : String) : Bool :=
  dt = "character varying" ∨ dt = "text" ∨ dt = "integer" ∨ dt = "numeric" ∨
    dt = "date" ∨ dt = "datetime"

/-- The column list built for one table's catalog rows
(reporter.py lines 57-72). -/
def buildColumns : List CdmRow → Except String (List ColDef)
  | [] => .ok []
  | r :: rest =>
      match typeOfData r.data_type with
      | .error m => .error m
      | .ok t =>
          match buildColumns rest with
          | .error m => .error m
          | .ok cs => .ok (⟨r.column_name, t, r.is_nullable == "yes"⟩ :: cs)

/-- First-occurrence deduplication, accumulating the names already seen. -/
def dedupAux : List String → List String → List String
  | [], _ => []
  | x :: xs, seen =>
      if x ∈ seen then dedupAux xs seen else x :: dedupAux xs (x :: seen)

/-- The distinct table names of the catalog (`cdm_df.groupby(['table_name'])`,
reporter.py line 54; group order is irrelevant to the namespace map). -/
def tableNames (cat : List CdmRow) : List String :=
  dedupAux (cat.map (·.table_name)) []

/-- The catalog rows describing one table. -/
def columnsFor (cat : List CdmRow) (tn : String) : List CdmRow :=
  cat.filter (fun r => r.table_name == tn)

/-- `table_df.column_name.unique()` (reporter.py line 157). -/
def columnNamesOf (cat : List CdmRow) (tn : String) : List String :=
  dedupAux ((columnsFor cat tn).map (·.column_name)) []

/-- The log-table layout (reporter.py lines 75-83), created empty. -/
def logTableState : TableState :=
  ⟨[⟨"log_id", .datetimeT, false⟩,
    ⟨"table_name", .stringN 100, false⟩,
    ⟨"phase", .stringN 200, false⟩,
    ⟨"success", .boolT, false⟩,
    ⟨"message", .stringN 500, true⟩,
    ⟨"params", .stringN 800, true⟩], []⟩

/-- The tables built from the catalog (one per distinct table name, empty),
or the first `NotImplementedError` raised while building columns. -/
def buildList (cat : List CdmRow) : List String → Except String (List (String × TableState))
  | [] => .ok []
  | tn :: rest =>
      match buildColumns (columnsFor cat tn) with
      | .error m => .error m
      | .ok cs =>
          match buildList cat rest with
          | .error m => .error m
          | .ok l => .ok ((tn, ⟨cs, []⟩) :: l)

/-- All catalog tables, built (reporter.py lines 52-73). -/
def buildCatalogTables (cat : List CdmRow) : Except String (List (String × TableState)) :=
  buildList cat (tableNames cat)

/-- Lookup in the built table list. -/
def lookupTS (l : List (String × TableState)) (n : String) : Option TableState :=
  (l.find? (fun p => p.1 == n)).map Prod.snd

/-- `drop_tables` (reporter.py lines 34-43): drop every existing table whose
name is an in-scope (PMI) table name or the log table name; leave every
other table untouched. -/
def dropTables (pmi : List String) (s : NS) : NS :=
  fun n => if n ∈ pmi ∨ n = LOG_TABLE_NAME then none else s n

/-- `create_tables` (reporter.py lines 46-85): build every catalog table's
layout (raising on an unrecognized data type before any DDL is issued), then
`create_all`, which creates each absent table empty and leaves existing
tables as they are. -/
def createTables (cat : List CdmRow) (s : NS) : Except String NS :=
  match buildCatalogTables cat with
  | .error m => .error m
  | .ok built =>
      .ok fun n =>
        match s n with
        | some t => some t
        | none =>
            if n = LOG_TABLE_NAME then some logTableState else lookupTS built n

/-- The reset sequence of `main` for one site (reporter.py lines 214-215):
drop the known tables, then create the catalog tables and the log table. -/
def resetNS (cat : List CdmRow) (pmi : List String) (s : NS) : Except String NS :=
  createTables cat (dropTables pmi s)

/-- The in-scope tables handed to the load loop
(reporter.py lines 109-111): catalog tables filtered to the PMI list, each
with its column names. -/
def inScopeTables (cat : List CdmRow) (pmi : List String) :
    List (String × List String) :=
  ((tableNames cat).filter (fun tn => pmi.contains tn)).map
    (fun tn => (tn, columnNamesOf cat tn))

/-- One site's run in `main` (reporter.py lines 208-216): reset the
namespace, then process; a reset error propagates and `process` never
runs. -/
def runSite (cat : List CdmRow) (pmi : List String) (env : Env)
    (hpoId sprintNum : String) (s : NS) (clk : Nat) :
    Except String (NS × List LogEntry) :=
  match resetNS cat pmi s with
  | .error m => .error m
  | .ok s1 => .ok (s1, (process env hpoId sprintNum (inScopeTables cat pmi) clk).1)

/-! ## Lemmas about the row transformation -/

theorem getCol_not_mem : ∀ (cols : List String) (r : List Cell) (c : String),
    c ∉ cols → getCol cols r c = none
  | [], _, _, _ => rfl
  | _ :: _, [], _, _ => rfl
  | c' :: cs, v :: vs, c, h => by
      have h1 : ¬(c' = c) := fun he => h (he ▸ List.mem_cons_self c' cs)
      have h2 : c ∉ cs := fun hm => h (List.mem_cons_of_mem _ hm)
      simp [getCol, h1, getCol_not_mem cs vs c h2]

theorem getCol_map_self : ∀ (l : List String) (f : String → Cell) (c : String),
    c ∈ l → getCol l (l.map f) c = f c
  | [], _, _, h => absurd h (List.not_mem_nil _)
  | c' :: cs, f, c, h => by
      by_cases he : c' = c
      · subst he; simp [getCol]
      · have hm : c ∈ cs := by
          rcases List.mem_cons.mp h with h1 | h1
          · exact absurd h1.symm he
          · exact h1
        simp [getCol, he, getCol_map_self cs f c hm]

theorem fill_getCol_concept : ∀ (cols : List String) (r : List Cell) (c : String),
    isConceptCol c = true → c ∈ cols → r.length = cols.length →
    getCol cols (fillRow cols r) c = some ((getCol cols r c).getD (Val.vint 0))
  | [], _, _, _, hm, _ => absurd hm (List.not_mem_nil _)
  | _ :: _, [], _, _, _, hlen => by simp at hlen
  | c' :: cs, v :: vs, c, hc, hm, hlen => by
      by_cases he : c' = c
      · subst he
        simp [fillRow, getCol, hc]
      · have hm' : c ∈ cs := by
          rcases List.mem_cons.mp hm with h1 | h1
          · exact absurd h1.symm he
          · exact h1
        have hlen' : vs.length = cs.length := by simpa using hlen
        simp [fillRow, getCol, he, fill_getCol_concept cs vs c hc hm' hlen']

theorem fill_getCol_not : ∀ (cols : List String) (r : List Cell) (c : String),
    isConceptCol c = false →
    getCol cols (fillRow cols r) c = getCol cols r c
  | [], _, _, _ => rfl
  | _ :: _, [], _, _ => rfl
  | c' :: cs, v :: vs, c, hc => by
      by_cases he : c' = c
      · subst he; simp [fillRow, getCol, hc]
      · simp [fillRow, getCol, he, fill_getCol_not cs vs c hc]

/-- **C3**: after lowercasing headers, the reindexed output has exactly the
target table's columns in the target's order; source columns absent from
the target are dropped; target columns absent from the (lowercased) source
are present and entirely null. -/
theorem column_reindexing (df : DF) (target : List String) :
    (DF.reindex (DF.renameLower df) target).cols = target
    ∧ (∀ c, c ∈ (DF.renameLower df).cols → c ∉ target →
        c ∉ (DF.reindex (DF.renameLower df) target).cols)
    ∧ (∀ c, c ∈ target → c ∉ (DF.renameLower df).cols →
        ∀ v ∈ DF.column (DF.reindex (DF.renameLower df) target) c, v = none) := by
  refine ⟨rfl, ?_, ?_⟩
  · intro c _ hnt
    simpa [DF.reindex] using hnt
  · intro c hct hnc v hv
    have hnc' : c ∉ (df.cols.map strLower) := by simpa [DF.renameLower] using hnc
    simp only [DF.column, DF.reindex, DF.renameLower, List.map_map, List.mem_map,
      Function.comp] at hv
    obtain ⟨r, _, hr⟩ := hv
    rw [← hr, getCol_map_self _ _ _ hct]
    exact getCol_not_mem _ _ _ hnc'

/-- **C3** witness: a source frame with columns `[B, A, extra]` reindexed
against the target `[a, b, c]`. -/
theorem column_reindexing_witness :
    ("extra" ∈ (DF.renameLower ⟨["B", "A", "extra"],
        [[some (Val.vint 1), some (Val.vint 2), some (Val.vint 3)]]⟩).cols
      ∧ "extra" ∉ (["a", "b", "c"] : List String)
      ∧ "c" ∈ (["a", "b", "c"] : List String)
      ∧ "c" ∉ (DF.renameLower ⟨["B", "A", "extra"],
        [[some (Val.vint 1), some (Val.vint 2), some (Val.vint 3)]]⟩).cols)
    ∧ "extra" ∉ (DF.reindex (DF.renameLower ⟨["B", "A", "extra"],
        [[some (Val.vint 1), some (Val.vint 2), some (Val.vint 3)]]⟩) ["a", "b", "c"]).cols
    ∧ ∀ v ∈ DF.column (DF.reindex (DF.renameLower ⟨["B", "A", "extra"],
        [[some (Val.vint 1), some (Val.vint 2), some (Val.vint 3)]]⟩) ["a", "b", "c"]) "c",
        v = none :=
  ⟨⟨by decide, by decide, by decide, by decide⟩,
   (column_reindexing ⟨["B", "A", "extra"],
      [[some (Val.vint 1), some (Val.vint 2), some (Val.vint 3)]]⟩ ["a", "b", "c"]).2.1
     "extra" (by decide) (by decide),
   (column_reindexing ⟨["B", "A", "extra"],
      [[some (Val.vint 1), some (Val.vint 2), some (Val.vint 3)]]⟩ ["a", "b", "c"]).2.2
     "c" (by decide) (by decide)⟩

/-- **C2** counterexample to the claim as stated: the target column
`Concept_ID` has a lowercased name ending in `concept_id` and not
containing `source`, yet its null cell is NOT replaced by 0 after
transformation, because the code tests `x.endswith('concept_id')` on the
raw (unlowered) column name. -/
theorem concept_coercion_claim_cex :
    strEndsWith (strLower "Concept_ID") "concept_id" = true
    ∧ strContains (strLower "Concept_ID") "source" = false
    ∧ DF.column (transform ⟨["x"], [[(none : Cell)]]⟩ ["Concept_ID"]) "Concept_ID"
        = [none] := by
  decide

/-- **C2** (amended): for every target column whose name, as written in the
catalog, ends with `concept_id` and does not contain `source`, every null
value in that column is replaced by integer 0 after transformation; every
column containing `source` is left exactly as reindexing produced it, so
its nulls stay null. -/
theorem concept_null_coercion (df : DF) (target : List String) :
    (∀ c, c ∈ target → strEndsWith c "concept_id" = true →
        strContains c "source" = false →
        DF.column (transform df target) c
          = (DF.column (DF.reindex (DF.renameLower df) target) c).map
              (fun v => some (v.getD (Val.vint 0))))
    ∧ (∀ c, strContains c "source" = true →
        DF.column (transform df target) c
          = DF.column (DF.reindex (DF.renameLower df) target) c) := by
  constructor
  · intro c hmem hend hsrc
    have hc : isConceptCol c = true := by simp [isConceptCol, hend, hsrc]
    simp only [transform, DF.column, DF.fillConcept, DF.reindex, DF.renameLower,
      List.map_map, Function.comp]
    have hfun : ∀ r : List Cell,
        getCol target (fillRow target (target.map (getCol (df.cols.map strLower) r))) c
          = some ((getCol target (target.map (getCol (df.cols.map strLower) r)) c).getD
              (Val.vint 0)) := fun r =>
      fill_getCol_concept target _ c hc hmem (by simp)
    simp [hfun]
  · intro c hsrc
    have hc : isConceptCol c = false := by simp [isConceptCol, hsrc]
    simp only [transform, DF.column, DF.fillConcept, DF.reindex, DF.renameLower,
      List.map_map, Function.comp]
    have hfun : ∀ r : List Cell,
        getCol target (fillRow target (target.map (getCol (df.cols.map strLower) r))) c
          = getCol target (target.map (getCol (df.cols.map strLower) r)) c := fun r =>
      fill_getCol_not target _ c hc
    simp [hfun]

/-- **C2** witness: `condition_concept_id` nulls become 0 while
`condition_source_concept_id` keeps its null. -/
theorem concept_null_coercion_witness :
    ("condition_concept_id" ∈ (["condition_concept_id",
        "condition_source_concept_id"] : List String)
      ∧ strEndsWith "condition_concept_id" "concept_id" = true
      ∧ strContains "condition_concept_id" "source" = false
      ∧ strContains "condition_source_concept_id" "source" = true)
    ∧ DF.column (transform ⟨["condition_concept_id"], [[(none : Cell)]]⟩
        ["condition_concept_id", "condition_source_concept_id"]) "condition_concept_id"
      = (DF.column (DF.reindex (DF.renameLower ⟨["condition_concept_id"],
          [[(none : Cell)]]⟩) ["condition_concept_id", "condition_source_concept_id"])
          "condition_concept_id").map (fun v => some (v.getD (Val.vint 0)))
    ∧ DF.column (transform ⟨["condition_concept_id"], [[(none : Cell)]]⟩
        ["condition_concept_id", "condition_source_concept_id"])
        "condition_source_concept_id"
      = DF.column (DF.reindex (DF.renameLower ⟨["condition_concept_id"],
          [[(none : Cell)]]⟩) ["condition_concept_id", "condition_source_concept_id"])
          "condition_source_concept_id" :=
  ⟨⟨by decide, by decide, by decide, by decide⟩,
   (concept_null_coercion ⟨["condition_concept_id"], [[(none : Cell)]]⟩
      ["condition_concept_id", "condition_source_concept_id"]).1
     "condition_concept_id" (by decide) (by decide) (by decide),
   (concept_null_coercion ⟨["condition_concept_id"], [[(none : Cell)]]⟩
      ["condition_concept_id", "condition_source_concept_id"]).2
     "condition_source_concept_id" (by decide)⟩

/-! ## Lemmas about the file index -/

theorem lookupFile_cons (k0 v0 : String) (rest : List (String × String)) (k' : String) :
    lookupFile ((k0, v0) :: rest) k' = if k0 = k' then some v0 else lookupFile rest k' := by
  by_cases h : k0 = k'
  · simp [lookupFile, List.find?, h]
  · have hb : ((k0, v0).1 == k') = false := by simp [h]
    simp [lookupFile, List.find?, hb, h]

theorem lookupFile_setKeyS : ∀ (m : List (String × String)) (k v k' : String),
    lookupFile (setKeyS m k v) k' = if k = k' then some v else lookupFile m k'
  | [], k, v, k' => by
      show lookupFile [(k, v)] k' = _
      rw [lookupFile_cons]
  | (k0, v0) :: rest, k, v, k' => by
      by_cases h0 : k0 = k
      · subst h0
        by_cases h : k0 = k' <;> simp [setKeyS, lookupFile_cons, h]
      · simp only [setKeyS, if_neg h0]
        rw [lookupFile_cons, lookupFile_setKeyS rest k v k', lookupFile_cons]
        by_cases h : k0 = k' <;> by_cases h2 : k = k'
        · exact absurd (h.trans h2.symm) h0
        · simp [h, h2]
        · simp [h, h2]
        · simp [h, h2]

theorem buildFileMap_lookup_mem : ∀ (files : List String) (m : List (String × String))
    (k f : String),
    lookupFile (files.foldl (fun m f => setKeyS m (strLower f) f) m) k = some f →
    (f ∈ files ∧ strLower f = k) ∨ lookupFile m k = some f
  | [], _, _, _, h => Or.inr h
  | f0 :: rest, m, k, f, h => by
      rcases buildFileMap_lookup_mem rest (setKeyS m (strLower f0) f0) k f h with h1 | h1
      · exact Or.inl ⟨List.mem_cons_of_mem _ h1.1, h1.2⟩
      · rw [lookupFile_setKeyS] at h1
        by_cases hk : strLower f0 = k
        · rw [if_pos hk] at h1
          exact Or.inl ⟨by simp [← Option.some_inj.mp h1], (Option.some_inj.mp h1) ▸ hk⟩
        · rw [if_neg hk] at h1
          exact Or.inr h1

theorem buildFileMap_lookup_isSome : ∀ (files : List String) (m : List (String × String))
    (k : String),
    (lookupFile (files.foldl (fun m f => setKeyS m (strLower f) f) m) k).isSome = true
      ↔ (∃ f ∈ files, strLower f = k) ∨ (lookupFile m k).isSome = true
  | [], m, k => by simp
  | f0 :: rest, m, k => by
      rw [List.foldl_cons, buildFileMap_lookup_isSome rest (setKeyS m (strLower f0) f0) k,
        lookupFile_setKeyS]
      by_cases hk : strLower f0 = k
      · simp [hk]
      · simp only [if_neg hk]
        constructor
        · rintro (⟨f, hf, hfk⟩ | hm)
          · exact Or.inl ⟨f, List.mem_cons_of_mem _ hf, hfk⟩
          · exact Or.inr hm
        · rintro (⟨f, hf, hfk⟩ | hm)
          · rcases List.mem_cons.mp hf with rfl | hf'
            · exact absurd hfk hk
            · exact Or.inl ⟨f, hf', hfk⟩
          · exact Or.inr hm

/-- **C4** counterexample to the claim as stated: the only file on disk,
`site_obs_datasprint_5.csv`, differs from the expected filename
`SITE_obs_datasprint_5.csv` only by letter case, yet it is reported as not
found, because only the directory side of the comparison is lowercased. -/
theorem resolve_case_claim_cex :
    resolve ["site_obs_datasprint_5.csv"] "SITE" "obs" "5" = none
    ∧ strLower (expectedFilename "SITE" "obs" "5") = "site_obs_datasprint_5.csv" := by
  decide

/-- **C4** (amended): the expected filename
`<site_id>_<table_name>_datasprint_<sprint_number>.csv` is looked up
verbatim in an index of lowercased on-disk filenames; a file resolves
exactly when its lowercased name equals the expected name as written, so
only case differences on the directory side are tolerated, and a resolved
file keeps its original-case path. -/
theorem resolve_case_spec (files : List String) (hpoId tableName sprintNum : String) :
    ((resolve files hpoId tableName sprintNum).isSome = true
      ↔ ∃ f ∈ files, strLower f = expectedFilename hpoId tableName sprintNum)
    ∧ (∀ f, resolve files hpoId tableName sprintNum = some f →
        f ∈ files ∧ strLower f = expectedFilename hpoId tableName sprintNum) := by
  constructor
  · rw [resolve, buildFileMap]
    rw [buildFileMap_lookup_isSome files [] (expectedFilename hpoId tableName sprintNum)]
    simp [lookupFile, List.find?]
  · intro f hf
    rw [resolve, buildFileMap] at hf
    rcases buildFileMap_lookup_mem files [] _ f hf with h1 | h1
    · exact h1
    · simp [lookupFile, List.find?] at h1

/-- **C4** witness: an upper-case on-disk file resolves to its
original-case path when the expected name is all lower case. -/
theorem resolve_case_spec_witness :
    resolve ["SITE_observation_datasprint_5.csv"] "site" "observation" "5"
        = some "SITE_observation_datasprint_5.csv"
    ∧ ("SITE_observation_datasprint_5.csv"
          ∈ (["SITE_observation_datasprint_5.csv"] : List String)
        ∧ strLower "SITE_observation_datasprint_5.csv"
            = expectedFilename "site" "observation" "5") :=
  ⟨by decide,
   (resolve_case_spec ["SITE_observation_datasprint_5.csv"] "site" "observation" "5").2
     "SITE_observation_datasprint_5.csv" (by decide)⟩

/-- **C8**: the drop step removes exactly the tables whose name is in the
in-scope (PMI) table set or is the log table name; every other table is
left unchanged. -/
theorem drop_tables_frame (pmi : List String) (s : NS) (n : String) :
    ((n ∈ pmi ∨ n = LOG_TABLE_NAME) → dropTables pmi s n = none)
    ∧ (¬(n ∈ pmi ∨ n = LOG_TABLE_NAME) → dropTables pmi s n = s n) := by
  constructor <;> intro h <;> simp [dropTables, h]

/-- **C8** witness: with in-scope set `{person}`, the reset drops `person`
and leaves `widgets` untouched. -/
theorem drop_tables_frame_witness :
    dropTables ["person"] (fun _ => some logTableState) "person" = none
    ∧ dropTables ["person"] (fun _ => some logTableState) "widgets"
        = (fun _ => some logTableState : NS) "widgets" :=
  ⟨(drop_tables_frame ["person"] (fun _ => some logTableState) "person").1
     (Or.inl (by decide)),
   (drop_tables_frame ["person"] (fun _ => some logTableState) "widgets").2
     (by simp [LOG_TABLE_NAME])⟩

/-! ## Lemmas about the schema catalog and namespace reset -/

/-- Whether an `Except` result is a success. -/
def isOkB {α : Type} : Except String α → Bool
  | .ok _ => true
  | .error _ => false

theorem typeOfData_ok (dt : String) : isOkB (typeOfData dt) = recognized dt := by
  simp only [typeOfData, recognized]
  repeat' split
  all_goals (try simp_all [isOkB])
  all_goals tauto

theorem buildColumns_ok : ∀ (rows : List CdmRow),
    isOkB (buildColumns rows) = rows.all (fun r => recognized r.data_type)
  | [] => rfl
  | r :: rest => by
      rw [List.all_cons, ← typeOfData_ok, ← buildColumns_ok rest]
      simp only [buildColumns]
      rcases h1 : typeOfData r.data_type with m | t <;>
        rcases h2 : buildColumns rest with m' | cs <;> simp [isOkB]

theorem buildList_ok (cat : List CdmRow) : ∀ (l : List String),
    isOkB (buildList cat l) = l.all (fun tn => isOkB (buildColumns (columnsFor cat tn)))
  | [] => rfl
  | tn :: rest => by
      rw [List.all_cons, ← buildList_ok cat rest]
      simp only [buildList]
      rcases h1 : buildColumns (columnsFor cat tn) with m | cs <;>
        rcases h2 : buildList cat rest with m' | l' <;> simp [isOkB]

theorem mem_dedupAux : ∀ (l seen : List String) (x : String),
    x ∈ dedupAux l seen ↔ x ∈ l ∧ x ∉ seen
  | [], seen, x => by simp [dedupAux]
  | y :: ys, seen, x => by
      by_cases hy : y ∈ seen
      · rw [dedupAux, if_pos hy, mem_dedupAux ys seen x]
        constructor
        · exact fun ⟨h1, h2⟩ => ⟨List.mem_cons_of_mem _ h1, h2⟩
        · rintro ⟨h1, h2⟩
          rcases List.mem_cons.mp h1 with rfl | h1'
          · exact absurd hy h2
          · exact ⟨h1', h2⟩
      · rw [dedupAux, if_neg hy]
        constructor
        · intro h
          rcases List.mem_cons.mp h with rfl | h'
          · exact ⟨List.mem_cons_self _ _, hy⟩
          · rcases (mem_dedupAux ys (y :: seen) x).mp h' with ⟨h1, h2⟩
            exact ⟨List.mem_cons_of_mem _ h1,
              fun hs => h2 (List.mem_cons_of_mem _ hs)⟩
        · rintro ⟨h1, h2⟩
          rcases List.mem_cons.mp h1 with rfl | h1'
          · exact List.mem_cons_self _ _
          · by_cases hxy : x = y
            · exact hxy ▸ List.mem_cons_self _ _
            · exact List.mem_cons_of_mem _ ((mem_dedupAux ys (y :: seen) x).mpr
                ⟨h1', by simp [hxy, h2]⟩)

theorem mem_tableNames (cat : List CdmRow) (tn : String) :
    tn ∈ tableNames cat ↔ ∃ r ∈ cat, r.table_name = tn := by
  rw [tableNames, mem_dedupAux]
  simp [List.mem_map, eq_comm]

theorem mem_columnsFor (cat : List CdmRow) (r : CdmRow) (h : r ∈ cat) :
    r ∈ columnsFor cat r.table_name := by
  rw [columnsFor, List.mem_filter]
  exact ⟨h, by simp⟩

theorem buildCatalogTables_ok (cat : List CdmRow) :
    isOkB (buildCatalogTables cat) = true
      ↔ ∀ r ∈ cat, recognized r.data_type = true := by
  rw [buildCatalogTables, buildList_ok, List.all_eq_true]
  constructor
  · intro h r hr
    have h1 := h r.table_name ((mem_tableNames cat r.table_name).mpr ⟨r, hr, rfl⟩)
    rw [buildColumns_ok, List.all_eq_true] at h1
    exact h1 r (mem_columnsFor cat r hr)
  · intro h tn htn
    rw [buildColumns_ok, List.all_eq_true]
    intro r hr
    exact h r (List.mem_of_mem_filter hr)

/-- **C9**: a site's run raises the fatal `NotImplementedError` exactly when
some catalog column's data-type token is outside the recognized set
{character varying, text, integer, numeric, date, datetime}; the error is
raised by table creation and propagates unchanged, so `process` (file
lookup, parsing, loading) never runs for that site. -/
theorem unrecognized_type_fatal (cat : List CdmRow) (pmi : List String) (env : Env)
    (hpoId sprintNum : String) (s : NS) (clk : Nat) :
    ((∃ m, runSite cat pmi env hpoId sprintNum s clk = .error m)
      ↔ ∃ r ∈ cat, recognized r.data_type = false)
    ∧ (∀ m, createTables cat (dropTables pmi s) = .error m →
        runSite cat pmi env hpoId sprintNum s clk = .error m) := by
  constructor
  · have hiff := buildCatalogTables_ok cat
    rcases hb : buildCatalogTables cat with m | built
    · constructor
      · intro _
        by_contra hno
        push_neg at hno
        have hall : ∀ r ∈ cat, recognized r.data_type = true := by
          intro r hr
          have hne := hno r hr
          cases hv : recognized r.data_type
          · exact absurd hv hne
          · rfl
        have hok := hiff.mpr hall
        rw [hb] at hok
        simp [isOkB] at hok
      · intro _
        exact ⟨m, by simp [runSite, resetNS, createTables, hb]⟩
    · constructor
      · rintro ⟨m, hm⟩
        exact absurd hm (by simp [runSite, resetNS, createTables, hb])
      · rintro ⟨r, hr, hbad⟩
        have hok : isOkB (buildCatalogTables cat) = true := by rw [hb]; rfl
        have hrec := hiff.mp hok r hr
        rw [hbad] at hrec
        simp at hrec
  · intro m hm
    simp [runSite, resetNS, hm]

/-- **C9** witness: a catalog with data-type `blob` makes the site run fail;
with the unrecognized row removed, it does not. -/
theorem unrecognized_type_fatal_witness :
    ((⟨"person", "person_id", "no", "blob"⟩ : CdmRow)
        ∈ [(⟨"person", "person_id", "no", "blob"⟩ : CdmRow)]
      ∧ recognized "blob" = false)
    ∧ (∃ m, runSite [⟨"person", "person_id", "no", "blob"⟩] ["person"]
        ⟨[], fun _ => ⟨.ok ⟨[], []⟩, fun _ => .ok⟩⟩ "site" "5" (fun _ => none) 0
          = .error m) :=
  ⟨⟨by decide, by decide⟩,
   (unrecognized_type_fatal [⟨"person", "person_id", "no", "blob"⟩] ["person"]
      ⟨[], fun _ => ⟨.ok ⟨[], []⟩, fun _ => .ok⟩⟩ "site" "5" (fun _ => none) 0).1.mpr
     ⟨⟨"person", "person_id", "no", "blob"⟩, by decide, by decide⟩⟩

theorem buildList_lookup (cat : List CdmRow) : ∀ (l : List String)
    (built : List (String × TableState)),
    buildList cat l = .ok built → ∀ tn ∈ l,
    ∃ cs, buildColumns (columnsFor cat tn) = .ok cs
      ∧ lookupTS built tn = some ⟨cs, []⟩
  | [], _, _, _, htn => absurd htn (List.not_mem_nil _)
  | tn0 :: rest, built, hb, tn, htn => by
      rw [buildList] at hb
      rcases h1 : buildColumns (columnsFor cat tn0) with m | cs0 <;> rw [h1] at hb
      · exact absurd hb (by simp)
      · rcases h2 : buildList cat rest with m | l' <;> rw [h2] at hb
        · exact absurd hb (by simp)
        · have hbuilt : built = (tn0, (⟨cs0, []⟩ : TableState)) :: l' := by
            simpa using hb.symm
          subst hbuilt
          by_cases he : tn0 = tn
          · subst he
            exact ⟨cs0, h1, by simp [lookupTS, List.find?]⟩
          · rcases List.mem_cons.mp htn with rfl | htn'
            · exact absurd rfl he
            · obtain ⟨cs, hcs, hl⟩ := buildList_lookup cat rest l' h2 tn htn'
              refine ⟨cs, hcs, ?_⟩
              have hbne : ((tn0, (⟨cs0, []⟩ : TableState)).1 == tn) = false := by
                simp [he]
              simp [lookupTS, List.find?, hbne] at hl ⊢
              exact hl

/-- **C7**: the reset sequence (drop the known tables, then create the
catalog tables and the log table) is idempotent: a second reset returns the
namespace produced by the first one unchanged, and after it every in-scope
table present in the catalog, and the log table, exists empty with its
catalog-defined column layout. -/
theorem reset_idempotent (cat : List CdmRow) (pmi : List String) (s s1 : NS)
    (h1 : resetNS cat pmi s = .ok s1) :
    resetNS cat pmi s1 = .ok s1
    ∧ s1 LOG_TABLE_NAME = some logTableState
    ∧ (∀ n, n ∈ pmi → n ∈ tableNames cat → n ≠ LOG_TABLE_NAME →
        ∃ cs, buildColumns (columnsFor cat n) = .ok cs ∧ s1 n = some ⟨cs, []⟩) := by
  rw [resetNS, createTables] at h1
  rcases hb : buildCatalogTables cat with m | built <;> rw [hb] at h1
  · exact absurd h1 (by simp)
  · have hs1 : s1 = fun n =>
        match dropTables pmi s n with
        | some t => some t
        | none =>
            if n = LOG_TABLE_NAME then some logTableState else lookupTS built n := by
      simpa using h1.symm
    refine ⟨?_, ?_, ?_⟩
    · rw [resetNS, createTables, hb]
      have : (fun n =>
          match dropTables pmi s1 n with
          | some t => some t
          | none =>
              if n = LOG_TABLE_NAME then some logTableState else lookupTS built n)
            = s1 := by
        funext n
        by_cases hn : n ∈ pmi ∨ n = LOG_TABLE_NAME
        · have hd : dropTables pmi s1 n = none := by simp [dropTables, hn]
          have hd0 : dropTables pmi s n = none := by simp [dropTables, hn]
          rw [hd, hs1]
          simp only [hd0]
        · have hd : dropTables pmi s1 n = s1 n := by simp [dropTables, hn]
          have hd0 : dropTables pmi s n = s n := by simp [dropTables, hn]
          rw [hd, hs1]
          simp only [hd0]
          rcases hsn : s n with _ | t
          · rcases hc : (if n = LOG_TABLE_NAME then some logTableState
                else lookupTS built n) with _ | ts <;> simp
          · simp
      exact congrArg Except.ok this
    · rw [hs1]
      have hd : dropTables pmi s LOG_TABLE_NAME = none := by
        simp [dropTables]
      simp only [hd]
      simp
    · intro n hnp hnc hnl
      obtain ⟨cs, hcs, hl⟩ := buildList_lookup cat (tableNames cat) built hb n hnc
      refine ⟨cs, hcs, ?_⟩
      rw [hs1]
      have hd : dropTables pmi s n = none := by simp [dropTables, hnp]
      simp only [hd]
      rw [if_neg hnl, hl]

/-- **C7** witness: a one-table catalog, reset from the empty namespace;
the resulting namespace is a fixed point of the reset. -/
theorem reset_idempotent_witness :
    ∃ s1, resetNS [⟨"person", "person_id", "no", "integer"⟩] ["person"]
        (fun _ => none) = .ok s1
      ∧ resetNS [⟨"person", "person_id", "no", "integer"⟩] ["person"] s1 = .ok s1
      ∧ s1 LOG_TABLE_NAME = some logTableState
      ∧ ∃ cs, buildColumns (columnsFor [⟨"person", "person_id", "no", "integer"⟩]
            "person") = .ok cs ∧ s1 "person" = some ⟨cs, []⟩ := by
  obtain ⟨s1, hs1⟩ : ∃ s1, resetNS [⟨"person", "person_id", "no", "integer"⟩]
      ["person"] (fun _ => none) = .ok s1 := ⟨_, rfl⟩
  obtain ⟨ha, hb, hc⟩ := reset_idempotent _ _ _ _ hs1
  exact ⟨s1, hs1, ha, hb, hc "person" (by decide) (by decide) (by decide)⟩

/-! ## Lemmas about the log export -/

theorem exportRow_eq (hpoId : String) (e : LogEntry) :
    exportRow hpoId e
      = [("log_id", .jstr (toString e.log_id)),
         ("table_name", .jstr e.table_name),
         ("phase", .jstr e.phase),
         ("success", .jbool e.success),
         ("message", optStrJ e.message),
         ("hpo_id", .jstr hpoId)] := by
  simp [exportRow, rowToPairs, eraseKey, setKey]

theorem exportRow_congr (hpoId : String) (a b : LogEntry) (h : sameButParams a b) :
    exportRow hpoId a = exportRow hpoId b := by
  obtain ⟨h1, h2, h3, h4, h5⟩ := h
  rw [exportRow_eq, exportRow_eq, h1, h2, h3, h4, h5]

theorem exportRows_congr (hpoId : String) : ∀ (l1 l2 : List LogEntry),
    List.Forall₂ sameButParams l1 l2 →
    l1.map (exportRow hpoId) = l2.map (exportRow hpoId)
  | [], [], _ => rfl
  | a :: l1, b :: l2, h => by
      rcases h with _ | ⟨hab, hrest⟩
      simp only [List.map_cons]
      rw [exportRow_congr hpoId a b hab, exportRows_congr hpoId l1 l2 hrest]

/-- **C5**: no exported record contains a `params` key; the exported
document is unchanged between two log states that differ only in `params`
values; and each exported record is the log row with `params` removed, the
owning `hpo_id` appended, and `log_id` converted to a string. -/
theorem export_confidentiality (hpoIds : List String)
    (logs1 logs2 : String → List LogEntry)
    (hagree : ∀ h, List.Forall₂ sameButParams (logs1 h) (logs2 h)) :
    (∀ rec ∈ exportLog logs1 hpoIds, ∀ kv ∈ rec, kv.1 ≠ "params")
    ∧ exportLog logs1 hpoIds = exportLog logs2 hpoIds
    ∧ (∀ h e, exportRow h e
        = [("log_id", .jstr (toString e.log_id)),
           ("table_name", .jstr e.table_name),
           ("phase", .jstr e.phase),
           ("success", .jbool e.success),
           ("message", optStrJ e.message),
           ("hpo_id", .jstr h)]) := by
  refine ⟨?_, ?_, exportRow_eq⟩
  · intro rec hrec kv hkv
    induction hpoIds with
    | nil => simp [exportLog] at hrec
    | cons h0 rest ih =>
        rw [exportLog, List.mem_append] at hrec
        rcases hrec with hrec | hrec
        · obtain ⟨e, _, he⟩ := List.mem_map.mp hrec
          rw [← he, exportRow_eq] at hkv
          simp only [List.mem_cons, List.not_mem_nil, or_false] at hkv
          rcases hkv with rfl | rfl | rfl | rfl | rfl | rfl <;> simp
        · exact ih hrec
  · induction hpoIds with
    | nil => rfl
    | cons h0 rest ih =>
        rw [exportLog, exportLog, ih, exportRows_congr h0 _ _ (hagree h0)]

/-- **C5** witness: one site whose single log row carries a secret `params`
payload; the export equals the export of the same log with `params`
nulled. -/
theorem export_confidentiality_witness :
    (∀ h : String, List.Forall₂ sameButParams
      ((fun _ : String => [(⟨0, "person", "Loading file into table", false,
          some "boom", some "secret"⟩ : LogEntry)]) h)
      ((fun _ : String => [(⟨0, "person", "Loading file into table", false,
          some "boom", none⟩ : LogEntry)]) h))
    ∧ (∀ rec ∈ exportLog (fun _ : String => [(⟨0, "person",
          "Loading file into table", false, some "boom",
          some "secret"⟩ : LogEntry)]) ["site_a"], ∀ kv ∈ rec, kv.1 ≠ "params")
    ∧ exportLog (fun _ : String => [(⟨0, "person", "Loading file into table",
          false, some "boom", some "secret"⟩ : LogEntry)]) ["site_a"]
      = exportLog (fun _ : String => [(⟨0, "person", "Loading file into table",
          false, some "boom", none⟩ : LogEntry)]) ["site_a"] := by
  have hagree : ∀ h : String, List.Forall₂ sameButParams
      [(⟨0, "person", "Loading file into table", false, some "boom",
          some "secret"⟩ : LogEntry)]
      [(⟨0, "person", "Loading file into table", false, some "boom",
          none⟩ : LogEntry)] := by
    intro h
    exact List.Forall₂.cons ⟨rfl, rfl, rfl, rfl, rfl⟩ List.Forall₂.nil
  obtain ⟨ha, hb, _⟩ := export_confidentiality ["site_a"]
    (fun _ : String => [(⟨0, "person", "Loading file into table", false,
        some "boom", some "secret"⟩ : LogEntry)])
    (fun _ : String => [(⟨0, "person", "Loading file into table", false,
        some "boom", none⟩ : LogEntry)]) hagree
  exact ⟨hagree, ha, hb⟩

/-! ## Lemmas about the per-table load loop -/

theorem processTable_names (env : Env) (hpoId sprintNum : String) (clk : Nat)
    (n : String) (cols : List String) :
    ∀ e ∈ (processTable env hpoId sprintNum clk n cols).1, e.table_name = n := by
  rcases hl : lookupFile env.fileMap (expectedFilename hpoId n sprintNum) with _ | p
  · simp [processTable, hl]
  · rcases hp : (env.outcome n).parse with m | df
    · simp [processTable, hl, hp]
    · rcases hld : (env.outcome n).load (transform df cols) with _ | ⟨m, ps⟩ | m <;>
        simp [processTable, hl, hp, hld]

theorem processTable_ne_nil (env : Env) (hpoId sprintNum : String) (clk : Nat)
    (n : String) (cols : List String) :
    (processTable env hpoId sprintNum clk n cols).1 ≠ [] := by
  rcases hl : lookupFile env.fileMap (expectedFilename hpoId n sprintNum) with _ | p
  · simp [processTable, hl]
  · rcases hp : (env.outcome n).parse with m | df
    · simp [processTable, hl, hp]
    · rcases hld : (env.outcome n).load (transform df cols) with _ | ⟨m, ps⟩ | m <;>
        simp [processTable, hl, hp, hld]

theorem processTable_trace (env : Env) (hpoId sprintNum : String) (clk : Nat)
    (n : String) (cols : List String) :
    (processTable env hpoId sprintNum clk n cols).1.map (fun e => (e.phase, e.success))
      = expectedTrace env hpoId sprintNum n cols := by
  rcases hl : lookupFile env.fileMap (expectedFilename hpoId n sprintNum) with _ | p
  · simp [processTable, expectedTrace, hl]
  · rcases hp : (env.outcome n).parse with m | df
    · simp [processTable, expectedTrace, hl, hp]
    · rcases hld : (env.outcome n).load (transform df cols) with _ | ⟨m, ps⟩ | m <;>
        simp [processTable, expectedTrace, hl, hp, hld]

theorem processTable_id_bounds (env : Env) (hpoId sprintNum : String) (clk : Nat)
    (n : String) (cols : List String) :
    ∀ e ∈ (processTable env hpoId sprintNum clk n cols).1,
      clk ≤ e.log_id ∧ e.log_id < (processTable env hpoId sprintNum clk n cols).2 := by
  rcases hl : lookupFile env.fileMap (expectedFilename hpoId n sprintNum) with _ | p
  · intro e he
    simp only [processTable, hl, List.mem_cons, List.not_mem_nil, or_false] at he ⊢
    subst he
    exact ⟨Nat.le_refl _, Nat.lt_succ_self _⟩
  · rcases hp : (env.outcome n).parse with m | df
    · intro e he
      simp only [processTable, hl, hp, List.mem_cons, List.not_mem_nil,
        or_false] at he ⊢
      rcases he with rfl | rfl <;> refine ⟨?_, ?_⟩ <;> simp
    · rcases hld : (env.outcome n).load (transform df cols) with _ | ⟨m, ps⟩ | m <;>
      · intro e he
        simp only [processTable, hl, hp, hld, List.mem_cons, List.not_mem_nil,
          or_false] at he ⊢
        rcases he with rfl | rfl | rfl <;> refine ⟨?_, ?_⟩ <;> simp

theorem processTable_clk_le (env : Env) (hpoId sprintNum : String) (clk : Nat)
    (n : String) (cols : List String) :
    clk ≤ (processTable env hpoId sprintNum clk n cols).2 := by
  rcases hl : lookupFile env.fileMap (expectedFilename hpoId n sprintNum) with _ | p
  · simp only [processTable, hl]
    omega
  · rcases hp : (env.outcome n).parse with m | df
    · simp only [processTable, hl, hp]
      omega
    · rcases hld : (env.outcome n).load (transform df cols) with _ | ⟨m, ps⟩ | m <;>
        simp only [processTable, hl, hp, hld] <;> omega

theorem processTable_pairwise (env : Env) (hpoId sprintNum : String) (clk : Nat)
    (n : String) (cols : List String) :
    ((processTable env hpoId sprintNum clk n cols).1.map LogEntry.log_id).Pairwise
      (· ≤ ·) := by
  rcases hl : lookupFile env.fileMap (expectedFilename hpoId n sprintNum) with _ | p
  · simp [processTable, hl]
  · rcases hp : (env.outcome n).parse with m | df
    · simp [processTable, hl, hp]
    · rcases hld : (env.outcome n).load (transform df cols) with _ | ⟨m, ps⟩ | m <;>
        simp [processTable, hl, hp, hld, List.pairwise_cons]

theorem processTable_fields (env : Env) (hpoId sprintNum : String) (clk : Nat)
    (n : String) (cols : List String) :
    ∀ e ∈ (processTable env hpoId sprintNum clk n cols).1,
      (e.success = true → e.message = none ∧ e.params = none)
      ∧ (e.success = false → e.message ≠ none ∧ e.params ≠ some "") := by
  rcases hl : lookupFile env.fileMap (expectedFilename hpoId n sprintNum) with _ | p
  · intro e he
    simp [processTable, hl] at he
    subst he
    simp
  · rcases hp : (env.outcome n).parse with m | df
    · intro e he
      simp [processTable, hl, hp] at he
      rcases he with rfl | rfl <;> simp
    · rcases hld : (env.outcome n).load (transform df cols) with _ | ⟨m, ps⟩ | m <;>
      · intro e he
        simp [processTable, hl, hp, hld] at he
        rcases he with rfl | rfl | rfl <;> simp [normParams]

theorem processTable_of_fullySucceeds (env : Env) (hpoId sprintNum : String)
    (clk : Nat) (n : String) (cols : List String)
    (h : fullySucceeds env hpoId sprintNum n cols = true) :
    ∃ e ∈ (processTable env hpoId sprintNum clk n cols).1,
      e.success = true ∧ e.phase = "Loading file into table" := by
  rcases hl : lookupFile env.fileMap (expectedFilename hpoId n sprintNum) with _ | p
  · simp [fullySucceeds, hl] at h
  · rcases hp : (env.outcome n).parse with m | df
    · simp [fullySucceeds, hl, hp] at h
    · rcases hld : (env.outcome n).load (transform df cols) with _ | ⟨m, ps⟩ | m
      · refine ⟨⟨clk + 2, n, "Loading file into table", true, none, none⟩, ?_, rfl, rfl⟩
        simp [processTable, hl, hp, hld]
      · simp [fullySucceeds, hl, hp, hld] at h
      · simp [fullySucceeds, hl, hp, hld] at h

theorem processTable_of_notFullySucceeds (env : Env) (hpoId sprintNum : String)
    (clk : Nat) (n : String) (cols : List String)
    (h : fullySucceeds env hpoId sprintNum n cols = false) :
    ∃ e ∈ (processTable env hpoId sprintNum clk n cols).1, e.success = false := by
  rcases hl : lookupFile env.fileMap (expectedFilename hpoId n sprintNum) with _ | p
  · refine ⟨⟨clk, n, "Received CSV file \"" ++ expectedFilename hpoId n sprintNum
      ++ "\"", false, some "File not found", none⟩, ?_, rfl⟩
    simp [processTable, hl]
  · rcases hp : (env.outcome n).parse with m | df
    · refine ⟨⟨clk + 1, n, "Parsing CSV file", false, some m, none⟩, ?_, rfl⟩
      simp [processTable, hl, hp]
    · rcases hld : (env.outcome n).load (transform df cols) with _ | ⟨m, ps⟩ | m
      · simp [fullySucceeds, hl, hp, hld] at h
      · refine ⟨⟨clk + 2, n, "Loading file into table", false, some m,
          normParams (some ps)⟩, ?_, rfl⟩
        simp [processTable, hl, hp, hld]
      · refine ⟨⟨clk + 2, n, "Loading file into table", false, some m, none⟩, ?_, rfl⟩
        simp [processTable, hl, hp, hld]

/-! ## Lemmas about the whole per-table iteration -/

theorem process_names (env : Env) (hpoId sprintNum : String) :
    ∀ (tables : List (String × List String)) (clk : Nat),
    ∀ e ∈ (process env hpoId sprintNum tables clk).1, ∃ p ∈ tables, e.table_name = p.1
  | [], _, e, he => absurd he (by simp [process])
  | (n, cols) :: rest, clk, e, he => by
      rw [process] at he
      rcases List.mem_append.mp he with h1 | h1
      · exact ⟨(n, cols), List.mem_cons_self _ _,
          processTable_names env hpoId sprintNum clk n cols e h1⟩
      · obtain ⟨p, hp, hn⟩ := process_names env hpoId sprintNum rest
          (processTable env hpoId sprintNum clk n cols).2 e h1
        exact ⟨p, List.mem_cons_of_mem _ hp, hn⟩

theorem process_ids_ge (env : Env) (hpoId sprintNum : String) :
    ∀ (tables : List (String × List String)) (clk : Nat),
    ∀ e ∈ (process env hpoId sprintNum tables clk).1, clk ≤ e.log_id
  | [], _, e, he => absurd he (by simp [process])
  | (n, cols) :: rest, clk, e, he => by
      rw [process] at he
      rcases List.mem_append.mp he with h1 | h1
      · exact (processTable_id_bounds env hpoId sprintNum clk n cols e h1).1
      · exact Nat.le_trans (processTable_clk_le env hpoId sprintNum clk n cols)
          (process_ids_ge env hpoId sprintNum rest
            (processTable env hpoId sprintNum clk n cols).2 e h1)

theorem process_pairwise (env : Env) (hpoId sprintNum : String) :
    ∀ (tables : List (String × List String)) (clk : Nat),
    ((process env hpoId sprintNum tables clk).1.map LogEntry.log_id).Pairwise (· ≤ ·)
  | [], _ => by simp [process]
  | (n, cols) :: rest, clk => by
      rw [process, List.map_append, List.pairwise_append]
      refine ⟨processTable_pairwise env hpoId sprintNum clk n cols,
        process_pairwise env hpoId sprintNum rest _, ?_⟩
      intro a ha b hb
      obtain ⟨e1, he1, rfl⟩ := List.mem_map.mp ha
      obtain ⟨e2, he2, rfl⟩ := List.mem_map.mp hb
      have h1 := (processTable_id_bounds env hpoId sprintNum clk n cols e1 he1).2
      have h2 := process_ids_ge env hpoId sprintNum rest _ e2 he2
      omega

theorem process_lift (env : Env) (hpoId sprintNum : String) :
    ∀ (tables : List (String × List String)) (clk : Nat)
    (n : String) (cols : List String), (n, cols) ∈ tables →
    ∃ clk', ∀ e ∈ (processTable env hpoId sprintNum clk' n cols).1,
      e ∈ (process env hpoId sprintNum tables clk).1
  | [], _, _, _, hmem => absurd hmem (List.not_mem_nil _)
  | (m, mc) :: rest, clk, n, cols, hmem => by
      rcases List.mem_cons.mp hmem with heq | hmem'
      · obtain ⟨rfl, rfl⟩ := Prod.mk.injEq .. ▸ heq
        exact ⟨clk, fun e he => by
          rw [process]
          exact List.mem_append_left _ he⟩
      · obtain ⟨clk', hsub⟩ := process_lift env hpoId sprintNum rest
          (processTable env hpoId sprintNum clk m mc).2 n cols hmem'
        exact ⟨clk', fun e he => by
          rw [process]
          exact List.mem_append_right _ (hsub e he)⟩

theorem process_filter_trace (env : Env) (hpoId sprintNum : String) :
    ∀ (tables : List (String × List String)) (clk : Nat)
      (n : String) (cols : List String),
    (tables.map Prod.fst).Nodup → (n, cols) ∈ tables →
    ((process env hpoId sprintNum tables clk).1.filter
        (fun e => e.table_name == n)).map (fun e => (e.phase, e.success))
      = expectedTrace env hpoId sprintNum n cols
  | [], _, _, _, _, hmem => absurd hmem (List.not_mem_nil _)
  | (m, mc) :: rest, clk, n, cols, hnd, hmem => by
      have hnd' : m ∉ rest.map Prod.fst ∧ (rest.map Prod.fst).Nodup := by
        rw [List.map_cons, List.nodup_cons] at hnd
        exact hnd
      rw [process, List.filter_append, List.map_append]
      rcases List.mem_cons.mp hmem with heq | hmem'
      · obtain ⟨rfl, rfl⟩ := Prod.mk.injEq .. ▸ heq
        have hkeep : (processTable env hpoId sprintNum clk n cols).1.filter
            (fun e => e.table_name == n)
              = (processTable env hpoId sprintNum clk n cols).1 := by
          apply List.filter_eq_self.mpr
          intro e he
          simp [processTable_names env hpoId sprintNum clk n cols e he]
        have hdrop : (process env hpoId sprintNum rest
            (processTable env hpoId sprintNum clk n cols).2).1.filter
              (fun e => e.table_name == n) = [] := by
          apply List.filter_eq_nil_iff.mpr
          intro e he
          obtain ⟨p, hp, hne⟩ := process_names env hpoId sprintNum rest _ e he
          have hpn : p.1 ≠ n := fun hcon =>
            hnd'.1 (hcon ▸ List.mem_map_of_mem Prod.fst hp)
          simp [hne, hpn]
        rw [hkeep, hdrop, processTable_trace]
        simp
      · have hn : n ∈ rest.map Prod.fst := List.mem_map_of_mem Prod.fst hmem'
        have hmn : m ≠ n := fun hcon => hnd'.1 (hcon ▸ hn)
        have hdrop : (processTable env hpoId sprintNum clk m mc).1.filter
            (fun e => e.table_name == n) = [] := by
          apply List.filter_eq_nil_iff.mpr
          intro e he
          simp [processTable_names env hpoId sprintNum clk m mc e he, hmn]
        rw [hdrop]
        simpa using process_filter_trace env hpoId sprintNum rest
          (processTable env hpoId sprintNum clk m mc).2 n cols hnd'.2 hmem'

/-- **C1**: per-table failures are isolated.  Every table in the iteration
is attempted (appears in the log); a table that fails at any phase gets a
failure entry; and a fully successful table gets its load-success entry, no
matter what happened to the other tables of the site. -/
theorem process_fail_isolation (env : Env) (hpoId sprintNum : String)
    (tables : List (String × List String)) (clk : Nat)
    (a b : String) (acols bcols : List String)
    (hma : (a, acols) ∈ tables) (hmb : (b, bcols) ∈ tables)
    (hfa : fullySucceeds env hpoId sprintNum a acols = false)
    (hfb : fullySucceeds env hpoId sprintNum b bcols = true) :
    (∀ p ∈ tables, ∃ e ∈ (process env hpoId sprintNum tables clk).1,
        e.table_name = p.1)
    ∧ (∃ e ∈ (process env hpoId sprintNum tables clk).1,
        e.table_name = a ∧ e.success = false)
    ∧ (∃ e ∈ (process env hpoId sprintNum tables clk).1,
        e.table_name = b ∧ e.success = true
          ∧ e.phase = "Loading file into table") := by
  refine ⟨?_, ?_, ?_⟩
  · rintro ⟨n, cols⟩ hp
    obtain ⟨clk', hsub⟩ := process_lift env hpoId sprintNum tables clk n cols hp
    obtain ⟨e, he⟩ := List.exists_mem_of_ne_nil _
      (processTable_ne_nil env hpoId sprintNum clk' n cols)
    exact ⟨e, hsub e he, processTable_names env hpoId sprintNum clk' n cols e he⟩
  · obtain ⟨clk', hsub⟩ := process_lift env hpoId sprintNum tables clk a acols hma
    obtain ⟨e, he, hes⟩ := processTable_of_notFullySucceeds env hpoId sprintNum
      clk' a acols hfa
    exact ⟨e, hsub e he,
      processTable_names env hpoId sprintNum clk' a acols e he, hes⟩
  · obtain ⟨clk', hsub⟩ := process_lift env hpoId sprintNum tables clk b bcols hmb
    obtain ⟨e, he, hes, hep⟩ := processTable_of_fullySucceeds env hpoId sprintNum
      clk' b bcols hfb
    exact ⟨e, hsub e he,
      processTable_names env hpoId sprintNum clk' b bcols e he, hes, hep⟩

/-- **C1** witness: table `a`'s file is missing while table `b` loads
fully; `b` still succeeds and both outcomes are in the log. -/
theorem process_fail_isolation_witness :
    (("a", ([] : List String)) ∈ [("a", ([] : List String)), ("b", ([] : List String))]
      ∧ ("b", ([] : List String)) ∈ [("a", ([] : List String)), ("b", ([] : List String))]
      ∧ fullySucceeds ⟨buildFileMap ["site_b_datasprint_5.csv"],
          fun _ => ⟨.ok ⟨[], []⟩, fun _ => .ok⟩⟩ "site" "5" "a" [] = false
      ∧ fullySucceeds ⟨buildFileMap ["site_b_datasprint_5.csv"],
          fun _ => ⟨.ok ⟨[], []⟩, fun _ => .ok⟩⟩ "site" "5" "b" [] = true)
    ∧ ((∀ p ∈ [("a", ([] : List String)), ("b", ([] : List String))],
        ∃ e ∈ (process ⟨buildFileMap ["site_b_datasprint_5.csv"],
            fun _ => ⟨.ok ⟨[], []⟩, fun _ => .ok⟩⟩ "site" "5"
            [("a", ([] : List String)), ("b", ([] : List String))] 0).1,
          e.table_name = p.1)
      ∧ (∃ e ∈ (process ⟨buildFileMap ["site_b_datasprint_5.csv"],
            fun _ => ⟨.ok ⟨[], []⟩, fun _ => .ok⟩⟩ "site" "5"
            [("a", ([] : List String)), ("b", ([] : List String))] 0).1,
          e.table_name = "a" ∧ e.success = false)
      ∧ (∃ e ∈ (process ⟨buildFileMap ["site_b_datasprint_5.csv"],
            fun _ => ⟨.ok ⟨[], []⟩, fun _ => .ok⟩⟩ "site" "5"
            [("a", ([] : List String)), ("b", ([] : List String))] 0).1,
          e.table_name = "b" ∧ e.success = true
            ∧ e.phase = "Loading file into table")) :=
  ⟨⟨by decide, by decide, by decide, by decide⟩,
   process_fail_isolation ⟨buildFileMap ["site_b_datasprint_5.csv"],
       fun _ => ⟨.ok ⟨[], []⟩, fun _ => .ok⟩⟩ "site" "5"
     [("a", ([] : List String)), ("b", ([] : List String))] 0 "a" "b" [] []
     (by decide) (by decide) (by decide) (by decide)⟩

/-- **C6**: log completeness and eager phase logging.  The whole run's log
has monotonically non-decreasing `log_id` timestamps; and for each table in
the (duplicate-free) iteration, the log entries bearing that table's name
are, in order, exactly one `(phase, success)` pair per phase reached, the
success entry of each phase preceding every entry of the next phase; every
entry belongs to some iterated table. -/
theorem log_completeness (env : Env) (hpoId sprintNum : String)
    (tables : List (String × List String)) (clk : Nat)
    (n : String) (cols : List String)
    (hnd : (tables.map Prod.fst).Nodup) (hmem : (n, cols) ∈ tables) :
    ((process env hpoId sprintNum tables clk).1.map LogEntry.log_id).Pairwise (· ≤ ·)
    ∧ ((process env hpoId sprintNum tables clk).1.filter
        (fun e => e.table_name == n)).map (fun e => (e.phase, e.success))
      = expectedTrace env hpoId sprintNum n cols
    ∧ (∀ e ∈ (process env hpoId sprintNum tables clk).1,
        ∃ p ∈ tables, e.table_name = p.1) :=
  ⟨process_pairwise env hpoId sprintNum tables clk,
   process_filter_trace env hpoId sprintNum tables clk n cols hnd hmem,
   process_names env hpoId sprintNum tables clk⟩

/-- **C6** witness: a fully successful `person` table writes its three
phase entries in order. -/
theorem log_completeness_witness :
    (((([("person", ["person_id"])] : List (String × List String)).map
        Prod.fst).Nodup)
      ∧ ("person", ["person_id"])
          ∈ ([("person", ["person_id"])] : List (String × List String)))
    ∧ (((process ⟨buildFileMap ["site_person_datasprint_5.csv"],
          fun _ => ⟨.ok ⟨[], []⟩, fun _ => .ok⟩⟩ "site" "5"
          [("person", ["person_id"])] 0).1.map LogEntry.log_id).Pairwise (· ≤ ·)
      ∧ ((process ⟨buildFileMap ["site_person_datasprint_5.csv"],
          fun _ => ⟨.ok ⟨[], []⟩, fun _ => .ok⟩⟩ "site" "5"
          [("person", ["person_id"])] 0).1.filter
            (fun e => e.table_name == "person")).map (fun e => (e.phase, e.success))
        = expectedTrace ⟨buildFileMap ["site_person_datasprint_5.csv"],
            fun _ => ⟨.ok ⟨[], []⟩, fun _ => .ok⟩⟩ "site" "5" "person" ["person_id"]
      ∧ (∀ e ∈ (process ⟨buildFileMap ["site_person_datasprint_5.csv"],
            fun _ => ⟨.ok ⟨[], []⟩, fun _ => .ok⟩⟩ "site" "5"
            [("person", ["person_id"])] 0).1,
          ∃ p ∈ ([("person", ["person_id"])] : List (String × List String)),
            e.table_name = p.1)) :=
  ⟨⟨by decide, by decide⟩,
   log_completeness ⟨buildFileMap ["site_person_datasprint_5.csv"],
       fun _ => ⟨.ok ⟨[], []⟩, fun _ => .ok⟩⟩ "site" "5"
     [("person", ["person_id"])] 0 "person" ["person_id"] (by decide) (by decide)⟩

/-- **C10**: every success-path log entry has `success = true` with null
`message` and `params`; every failure-path entry has `success = false` with
a non-null `message` and never stores an empty-string `params` (an empty or
absent diagnostic payload is normalized to null by `params or None`). -/
theorem log_entry_field_invariants (env : Env) (hpoId sprintNum : String)
    (tables : List (String × List String)) (clk : Nat) :
    (∀ e ∈ (process env hpoId sprintNum tables clk).1,
      (e.success = true → e.message = none ∧ e.params = none)
      ∧ (e.success = false → e.message ≠ none ∧ e.params ≠ some ""))
    ∧ normParams (some "") = none ∧ normParams none = none := by
  refine ⟨?_, rfl, rfl⟩
  induction tables generalizing clk with
  | nil => intro e he; exact absurd he (by simp [process])
  | cons t rest ih =>
      intro e he
      obtain ⟨n, cols⟩ := t
      rw [process] at he
      rcases List.mem_append.mp he with h1 | h1
      · exact processTable_fields env hpoId sprintNum clk n cols e h1
      · exact ih _ e h1

/-- **C10** witness: the file-not-found failure entry for table `t` has a
non-null message and a null params. -/
theorem log_entry_field_invariants_witness :
    ((⟨0, "t", "Received CSV file \"site_t_datasprint_5.csv\"", false,
        some "File not found", none⟩ : LogEntry)
      ∈ (process ⟨[], fun _ => ⟨.ok ⟨[], []⟩, fun _ => .ok⟩⟩ "site" "5"
          [("t", ([] : List String))] 0).1)
    ∧ ((⟨0, "t", "Received CSV file \"site_t_datasprint_5.csv\"", false,
        some "File not found", none⟩ : LogEntry).success = false →
      (⟨0, "t", "Received CSV file \"site_t_datasprint_5.csv\"", false,
        some "File not found", none⟩ : LogEntry).message ≠ none
      ∧ (⟨0, "t", "Received CSV file \"site_t_datasprint_5.csv\"", false,
        some "File not found", none⟩ : LogEntry).params ≠ some "") :=
  ⟨by decide,
   ((log_entry_field_invariants ⟨[], fun _ => ⟨.ok ⟨[], []⟩, fun _ => .ok⟩⟩
      "site" "5" [("t", ([] : List String))] 0).1
     ⟨0, "t", "Received CSV file \"site_t_datasprint_5.csv\"", false,
        some "File not found", none⟩ (by decide)).2⟩
